import Mathlib

/-!
Verification development for the automaker feature-execution core.

The definitions below are a shallow embedding of the TypeScript/JavaScript
sources:
  apps/server/src/services/feature-loader.ts   (FeatureLoader, McpServerFactory)
  apps/server/src/routes/running-agents.ts     (running-agents registry)
  apps/server/src/lib/events.ts                (event emitter)
  app/electron/services/feature-executor.js    (FeatureExecutor)

JavaScript objects are embedded as association lists from string keys to a
small universe of JSON-like values; the on-disk feature store
(.automaker/features/{featureId}/feature.json) is an association list from
the feature directory name to the parsed feature object.
-/

/-- Universe of JSON-like values stored in feature records. -/
inductive JVal where
  | vstr (s : String)
  | vbool (b : Bool)
  | vnum (n : Int)
  deriving DecidableEq, Repr

/-- A JavaScript object: ordered association list of fields. -/
abbrev Obj := List (String × JVal)

/-- The durable feature store: directory name to parsed feature.json. -/
abbrev FStore := List (String × Obj)

/-- Field lookup on an object (first matching key wins). -/
def olookup : Obj → String → Option JVal
  | [], _ => none
  | p :: t, k => if p.1 = k then some p.2 else olookup t k

/-- JS object spread: the literal written with the fields of a first and
the fields of b second, so a field of b wins over the same field of a,
and fields of a absent from b are preserved. -/
def spread : Obj → Obj → Obj
  | [], b => b
  | p :: t, b =>
      if (olookup b p.1).isSome then spread t b else p :: spread t b

/-- JS truthiness of an optional field value. -/
def truthy : Option JVal → Bool
  | some (JVal.vstr s) => s ≠ ""
  | some (JVal.vbool b) => b
  | some (JVal.vnum n) => n ≠ 0
  | none => false

/-- FeatureLoader.getAll: read every feature directory, skipping records
whose id field is missing or falsy (source: if not feature.id, skip).
The timestamp sort is omitted; no claim below depends on list order. -/
def getAll (fs : FStore) : List Obj :=
  (fs.map (fun p => p.2)).filter (fun o => truthy (olookup o "id"))

/-- FeatureLoader.get: read feature.json from the directory named by the
feature id; absent directory yields none. -/
def storeGet : FStore → String → Option Obj
  | [], _ => none
  | p :: t, fid => if p.1 = fid then some p.2 else storeGet t fid

/-- Writing feature.json back into an existing feature directory. -/
def storeWrite : FStore → String → Obj → FStore
  | [], _, _ => []
  | p :: t, fid, o =>
      if p.1 = fid then (fid, o) :: storeWrite t fid o
      else p :: storeWrite t fid o

/-- FeatureLoader.update: read-modify-write with merge semantics, embedding
the object spread of the stored feature and the updates; fails when the
feature is absent (source: throw new Error, Feature not found). -/
def featureUpdate (fs : FStore) (fid : String) (updates : Obj) :
    Except String (FStore × Obj) :=
  match storeGet fs fid with
  | none => Except.error ("Feature " ++ fid ++ " not found")
  | some feature =>
      let updatedFeature := spread feature updates
      Except.ok (storeWrite fs fid updatedFeature, updatedFeature)

/-- FeatureLoader.delete: fs.rm on the feature directory with recursive and
force options, so removal of an absent directory succeeds; the boolean
argument models the recursive removal itself throwing an I/O error, which
is the only way the catch branch (returning false) is reached. -/
def featureDelete (fs : FStore) (fid : String) (rmThrows : Bool) :
    FStore × Bool :=
  if rmThrows then (fs, false)
  else (fs.filter (fun p => p.1 ≠ fid), true)

/-- Modelled from the spec: the callback updateFeatureStatus bound from the
electron feature loader is not among the sources (only its callers are);
per the spec the Status Mutation Gateway applies the possibly rewritten
status via the Feature Store update operation. -/
def updateFeatureStatusCallback (fs : FStore) (fid finalStatus : String) :
    Except String FStore :=
  (featureUpdate fs fid [("status", JVal.vstr finalStatus)]).map (fun r => r.1)

/-- Confirmation text for the rewritten (skipTests) case, from
McpServerFactory.createFeatureToolsServer. -/
def convertedStatusMessage (fid finalStatus status : String) : String :=
  "Successfully updated feature " ++ fid ++ " to status \"" ++ finalStatus ++
    "\" (converted from \"" ++ status ++ "\" because skipTests=true)"

/-- Confirmation text for the direct case. -/
def directStatusMessage (fid finalStatus : String) : String :=
  "Successfully updated feature " ++ fid ++ " to status \"" ++ finalStatus ++ "\""

/-- Body of the UpdateFeatureStatus tool handler (the try block): load the
features, find the target by its id field, rewrite verified to
waiting_approval when skipTests is strictly true, apply the update through
the callback, and build the confirmation text. -/
def setStatusCore (fs : FStore) (fid status : String) :
    Except String (FStore × String) :=
  match (getAll fs).find?
      (fun f => decide (olookup f "id" = some (JVal.vstr fid))) with
  | none => Except.error ("Feature " ++ fid ++ " not found")
  | some feature =>
      let finalStatus :=
        if status = "verified" ∧ olookup feature "skipTests" = some (JVal.vbool true)
        then "waiting_approval" else status
      match updateFeatureStatusCallback fs fid finalStatus with
      | Except.error e => Except.error e
      | Except.ok fs' =>
          let msg :=
            if finalStatus ≠ status then convertedStatusMessage fid finalStatus status
            else directStatusMessage fid finalStatus
          Except.ok (fs', msg)

/-- The full UpdateFeatureStatus tool: the catch branch converts any thrown
error into a failure text returned to the agent, leaving the store as it
was. -/
def updateFeatureStatusTool (fs : FStore) (fid status : String) :
    FStore × String :=
  match setStatusCore fs fid status with
  | Except.ok r => r
  | Except.error e => (fs, "Failed to update feature status: " ++ e)

/-! Embedding of app/electron/services/feature-executor.js.  The agent
runtime stream (for await over the SDK query) is embedded as the list of
messages the stream yields, together with a tail saying whether the stream
ends normally or raises an error at the point where the list is exhausted.
The Execution Handle liveness flag (execution.isActive, polled once per
received message) is embedded as a function from the poll index to a
boolean. -/

/-- Content block of an assistant message. -/
inductive Block where
  | textBlock (s : String)
  | toolUseBlock (name : String)
  | otherBlock
  deriving DecidableEq, Repr

/-- A streamed unit from the agent runtime. -/
inductive Msg where
  | assistant (content : List Block)
  | other
  deriving DecidableEq, Repr

/-- Errors raised by the agent runtime (AbortError versus anything else). -/
inductive JsErr where
  | abortErr
  | otherErr (s : String)
  deriving DecidableEq, Repr

/-- How the stream ends once its yielded messages are exhausted. -/
inductive StreamTail where
  | done
  | raised (e : JsErr)
  deriving DecidableEq, Repr

/-- Events sent to the renderer (sendToRenderer): phase events
(auto_mode_phase), progress text (auto_mode_progress) and tool
notifications (auto_mode_tool). -/
inductive Ev where
  | phase (p : String)
  | progress (content : String)
  | tool (name : String)
  deriving DecidableEq, Repr

/-- Outcome returned to the caller of a run. -/
structure Outcome where
  passes : Bool
  message : String
  deriving DecidableEq, Repr

/-- A run either returns an outcome or re-raises an error to the caller. -/
inductive RunResult where
  | ok (o : Outcome)
  | thrown (e : JsErr)
  deriving DecidableEq, Repr

/-- Everything observable about one run: the ordered renderer events, the
result, whether the query and abortController slots on the execution
record were cleared, and the error logged through console.error if any. -/
structure RunOutput where
  trace : List Ev
  result : RunResult
  handleCleared : Bool
  loggedError : Option JsErr
  deriving DecidableEq, Repr

/-- Mutable state of the streaming loop: accumulated responseText, the
hasStartedToolUse flag and the renderer events emitted so far. -/
structure LoopState where
  responseText : String
  hasStartedToolUse : Bool
  events : List Ev
  deriving DecidableEq, Repr

/-- Loop state at entry to the for-await loop. -/
def initLoopState : LoopState := ⟨"", false, []⟩

/-- responseText.substring(0, 500): the first 500 characters. -/
def substring500 (s : String) : String := String.mk (s.data.take 500)

/-- Processing of one content block inside implementFeature: text blocks
extend responseText and stream progress; the first tool use additionally
emits the starting-implementation progress line. -/
def implementStepBlock (st : LoopState) : Block → LoopState
  | Block.textBlock s =>
      { st with responseText := st.responseText ++ s,
                events := st.events ++ [Ev.progress s] }
  | Block.toolUseBlock n =>
      let st1 :=
        if st.hasStartedToolUse then st
        else { st with hasStartedToolUse := true,
                       events := st.events ++
                         [Ev.progress "Starting code implementation...\n"] }
      { st1 with events := st1.events ++ [Ev.tool n] }
  | Block.otherBlock => st

/-- Processing of one streamed message inside implementFeature: only
assistant messages with content are examined. -/
def implementStep (st : LoopState) : Msg → LoopState
  | Msg.assistant content => content.foldl implementStepBlock st
  | Msg.other => st

/-- Processing of one content block inside commitChangesOnly (no
starting-implementation marker). -/
def commitStepBlock (st : LoopState) : Block → LoopState
  | Block.textBlock s =>
      { st with responseText := st.responseText ++ s,
                events := st.events ++ [Ev.progress s] }
  | Block.toolUseBlock n =>
      { st with events := st.events ++ [Ev.tool n] }
  | Block.otherBlock => st

/-- Processing of one streamed message inside commitChangesOnly. -/
def commitStep (st : LoopState) : Msg → LoopState
  | Msg.assistant content => content.foldl commitStepBlock st
  | Msg.other => st

/-- The for-await consuming loop: before processing the message received at
poll index i the loop checks execution.isActive and breaks when the handle
is inactive.  Returns the final state, whether the loop broke early, and
how many messages were processed. -/
def runLoop (step : LoopState → Msg → LoopState) (activity : Nat → Bool) :
    Nat → LoopState → List Msg → LoopState × Bool × Nat
  | _, st, [] => (st, false, 0)
  | i, st, m :: rest =>
      if activity i then
        let r := runLoop step activity (i + 1) (step st m) rest
        (r.1, r.2.1, r.2.2 + 1)
      else (st, true, 0)

/-- The pass computation of the verification phase: re-read the store and
accept status verified, or waiting_approval when skipTests is truthy
(source: updatedFeature status equals verified, or updatedFeature
skipTests and status equals waiting_approval). -/
def computePasses (store : FStore) (feature : Obj) : Bool :=
  let updatedFeature :=
    (getAll store).find? (fun f => decide (olookup f "id" = olookup feature "id"))
  decide (updatedFeature.bind (fun f => olookup f "status")
            = some (JVal.vstr "verified"))
  || (truthy (updatedFeature.bind (fun f => olookup f "skipTests"))
      && decide (updatedFeature.bind (fun f => olookup f "status")
                   = some (JVal.vstr "waiting_approval")))

/-- FeatureExecutor.implementFeature.  The store argument is the content of
the Feature Store at the time of the verification re-read; msgs, tail and
activity describe the agent stream and the Execution Handle liveness.  The
phase events, the streaming loop, the verification re-read, the AbortError
recovery and the error re-raise follow the source; transcript file writes
and console logging other than console.error of the fatal error are not
observable here and are omitted. -/
def implementFeature (store : FStore) (feature : Obj) (msgs : List Msg)
    (tail : StreamTail) (activity : Nat → Bool) : RunOutput :=
  let preEvents : List Ev :=
    [Ev.phase "planning",
     Ev.progress "Analyzing codebase structure and creating implementation plan...",
     Ev.phase "action"]
  let r := runLoop implementStep activity 0 initLoopState msgs
  let st := r.1
  let broke := r.2.1
  let streamError : Option JsErr :=
    if broke then none
    else match tail with
      | StreamTail.done => none
      | StreamTail.raised e => some e
  match streamError with
  | some JsErr.abortErr =>
      { trace := preEvents ++ st.events,
        result := RunResult.ok ⟨false, "Auto mode aborted"⟩,
        handleCleared := true,
        loggedError := none }
  | some (JsErr.otherErr s) =>
      { trace := preEvents ++ st.events,
        result := RunResult.thrown (JsErr.otherErr s),
        handleCleared := true,
        loggedError := some (JsErr.otherErr s) }
  | none =>
      let passes := computePasses store feature
      let resultMsg :=
        if passes then "✓ Verification successful: All tests passed\n"
        else "✗ Verification: Tests need attention\n"
      { trace := preEvents ++ st.events ++
          [Ev.phase "verification",
           Ev.progress "Verifying implementation and checking test results...\n",
           Ev.progress resultMsg],
        result := RunResult.ok ⟨passes, substring500 st.responseText⟩,
        handleCleared := true,
        loggedError := none }

/-- FeatureExecutor.commitChangesOnly: same streaming shape, no phase
events, no verification re-read; passes is the literal true on the normal
exit, and the abort recovery returns the commit-aborted outcome. -/
def commitChangesOnly (_feature : Obj) (msgs : List Msg)
    (tail : StreamTail) (activity : Nat → Bool) : RunOutput :=
  let preEvents : List Ev := [Ev.progress "Committing changes to git..."]
  let r := runLoop commitStep activity 0 initLoopState msgs
  let st := r.1
  let broke := r.2.1
  let streamError : Option JsErr :=
    if broke then none
    else match tail with
      | StreamTail.done => none
      | StreamTail.raised e => some e
  match streamError with
  | some JsErr.abortErr =>
      { trace := preEvents ++ st.events,
        result := RunResult.ok ⟨false, "Commit aborted"⟩,
        handleCleared := true,
        loggedError := none }
  | some (JsErr.otherErr s) =>
      { trace := preEvents ++ st.events,
        result := RunResult.thrown (JsErr.otherErr s),
        handleCleared := true,
        loggedError := some (JsErr.otherErr s) }
  | none =>
      { trace := preEvents ++ st.events ++
          [Ev.progress "✓ Changes committed successfully\n"],
        result := RunResult.ok ⟨true, substring500 st.responseText⟩,
        handleCleared := true,
        loggedError := none }

/-- Options passed to the SDK query. -/
structure QueryOptions where
  model : String
  maxTurns : Nat
  allowedTools : List String
  sandboxEnabled : Bool
  deriving DecidableEq, Repr

/-- Options of implementFeature. -/
def implementFeatureOptions : QueryOptions :=
  { model := "claude-opus-4-5-20251101",
    maxTurns := 1000,
    allowedTools := ["Read", "Write", "Edit", "Glob", "Grep", "Bash",
      "WebSearch", "WebFetch", "mcp__automaker-tools__UpdateFeatureStatus"],
    sandboxEnabled := true }

/-- Options of commitChangesOnly. -/
def commitOnlyOptions : QueryOptions :=
  { model := "claude-sonnet-4-20250514",
    maxTurns := 10,
    allowedTools := ["Bash", "mcp__automaker-tools__UpdateFeatureStatus"],
    sandboxEnabled := false }

/-- Phase events of a renderer trace, in order. -/
def phasesOf (tr : List Ev) : List String :=
  tr.filterMap (fun e => match e with | Ev.phase p => some p | _ => none)

/-! Embedding of apps/server/src/lib/events.ts.  A JS Set of callbacks is a
list in insertion order without duplicates; a callback is identified by a
reference id and its behaviour on an event is either a normal return
(none) or a thrown error message (some). -/

/-- One event as published on the bus: type tag and payload rendering. -/
abbrev BusEvent := String × String

/-- A subscriber callback: identity plus behaviour (some s means the
callback throws s on that event). -/
structure Subscriber where
  id : Nat
  behavior : BusEvent → Option String

/-- The loop body of emit: invoke each callback in turn inside try-catch,
logging a thrown error with console.error and continuing.  Returns the ids
invoked in order and the logged error lines. -/
def emitGo (e : BusEvent) : List Subscriber → List Nat × List String
  | [] => ([], [])
  | s :: rest =>
      let r := emitGo e rest
      match s.behavior e with
      | none => (s.id :: r.1, r.2)
      | some err => (s.id :: r.1, ("Error in event subscriber: " ++ err) :: r.2)

/-- createEventEmitter().emit: iterates the subscriber set and never
mutates it. -/
def emitBus (subs : List Subscriber) (e : BusEvent) :
    List Subscriber × List Nat × List String :=
  (subs, emitGo e subs)

/-- createEventEmitter().subscribe: Set.add, a no-op when the same callback
reference is already present, otherwise appended in insertion order. -/
def subscribeBus (subs : List Subscriber) (s : Subscriber) : List Subscriber :=
  if subs.any (fun t => t.id == s.id) then subs else subs ++ [s]

/-! Embedding of apps/server/src/routes/running-agents.ts.  The Map keyed
by featureId is an association list in insertion order with unique keys. -/

/-- Entry of the running-agents map. -/
structure RunningAgent where
  featureId : String
  projectPath : String
  projectName : String
  isAutoMode : Bool
  deriving DecidableEq, Repr

/-- Running-Set Registry state. -/
abbrev Registry := List (String × RunningAgent)

/-- path.basename as used on projectPath (last path segment). -/
def basename (p : String) : String :=
  ((p.splitOn "/").getLast?).getD p

/-- JS Map.set: replace in place when the key exists, else append. -/
def mapSet (reg : Registry) (k : String) (v : RunningAgent) : Registry :=
  if reg.any (fun p => p.1 == k) then
    reg.map (fun p => if p.1 == k then (k, v) else p)
  else reg ++ [(k, v)]

/-- registerRunningAgent: unconditional Map.set of the entry. -/
def registerRunningAgent (reg : Registry) (featureId projectPath : String)
    (isAutoMode : Bool) : Registry :=
  mapSet reg featureId
    ⟨featureId, projectPath, basename projectPath, isAutoMode⟩

/-- unregisterRunningAgent: Map.delete. -/
def unregisterRunningAgent (reg : Registry) (featureId : String) : Registry :=
  reg.filter (fun p => p.1 ≠ featureId)

/-- isAgentRunning: Map.has. -/
def isAgentRunning (reg : Registry) (featureId : String) : Bool :=
  reg.any (fun p => p.1 == featureId)

/-- getRunningAgentsCount: Map.size. -/
def getRunningAgentsCount (reg : Registry) : Nat :=
  reg.length

/-- Acceptance of a run request at the registry. -/
inductive RunAccept where
  | accepted
  | busy
  deriving DecidableEq, Repr

/-- Modelled from the spec: the orchestrator entry point that gates a run
request on the Running-Set Registry is not among the sources (only the
registry primitives are); per the spec a run request is checked against
the registry at registration time and a second run call for an
already-running feature fails fast with a busy error rather than queueing,
the check and registration being one atomic mutation. -/
def tryRegister (reg : Registry) (featureId projectPath : String)
    (isAutoMode : Bool) : Registry × RunAccept :=
  if isAgentRunning reg featureId then (reg, RunAccept.busy)
  else (registerRunningAgent reg featureId projectPath isAutoMode,
        RunAccept.accepted)

/-! Helper lemmas. -/

theorem olookup_spread_of_isSome (a b : Obj) (k : String)
    (h : (olookup b k).isSome) : olookup (spread a b) k = olookup b k := by
  induction a with
  | nil => rfl
  | cons p t ih =>
      by_cases hp : (olookup b p.1).isSome
      · simp only [spread, hp, if_pos]
        exact ih
      · simp only [spread, hp, if_neg, if_false]
        by_cases hpk : p.1 = k
        · rw [hpk] at hp
          exact absurd h hp
        · simp only [olookup, hpk, if_neg, if_false]
          exact ih

theorem olookup_spread_of_none (a b : Obj) (k : String)
    (h : olookup b k = none) : olookup (spread a b) k = olookup a k := by
  induction a with
  | nil => simpa [spread, olookup] using h
  | cons p t ih =>
      by_cases hp : (olookup b p.1).isSome
      · have hpk : p.1 ≠ k := by
          intro he
          rw [he, h] at hp
          simp at hp
        simp only [spread]
        rw [if_pos hp, ih, olookup, if_neg hpk]
      · simp only [spread]
        rw [if_neg hp]
        by_cases hpk : p.1 = k
        · rw [olookup, olookup, if_pos hpk, if_pos hpk]
        · rw [olookup, olookup, if_neg hpk, if_neg hpk]
          exact ih

theorem storeGet_storeWrite_self (fs : FStore) (fid : String) (x : Obj)
    (h : storeGet fs fid ≠ none) :
    storeGet (storeWrite fs fid x) fid = some x := by
  induction fs with
  | nil => simp [storeGet] at h
  | cons p t ih =>
      by_cases hp : p.1 = fid
      · simp [storeWrite, storeGet, hp]
      · simp only [storeWrite, hp, if_neg, if_false, storeGet] at *
        exact ih h

theorem storeGet_eq_none_filter (fs : FStore) (fid : String)
    (h : storeGet fs fid = none) :
    fs.filter (fun p => p.1 ≠ fid) = fs := by
  induction fs with
  | nil => rfl
  | cons p t ih =>
      by_cases hp : p.1 = fid
      · rw [storeGet, if_pos hp] at h
        exact absurd h (by simp)
      · rw [storeGet, if_neg hp] at h
        have hcond : decide (p.1 ≠ fid) = true := by simp [hp]
        rw [List.filter_cons, if_pos hcond, ih h]

theorem runLoop_count_le (step : LoopState → Msg → LoopState)
    (activity : Nat → Bool) :
    ∀ (msgs : List Msg) (i j : Nat) (st : LoopState),
      activity (i + j) = false →
      (runLoop step activity i st msgs).2.2 ≤ j := by
  intro msgs
  induction msgs with
  | nil => intro i j st _; simp [runLoop]
  | cons m rest ih =>
      intro i j st h
      by_cases ha : activity i
      · cases j with
        | zero =>
            rw [Nat.add_zero] at h
            rw [h] at ha
            cases ha
        | succ j' =>
            have harg : i + 1 + j' = i + (j' + 1) := by omega
            have hrec := ih (i + 1) j' (step st m) (by rw [harg]; exact h)
            simp only [runLoop, ha, if_pos]
            omega
      · simp only [Bool.not_eq_true] at ha
        simp [runLoop, ha]

theorem runLoop_no_break (step : LoopState → Msg → LoopState)
    (activity : Nat → Bool) (hact : ∀ i, activity i = true) :
    ∀ (msgs : List Msg) (i : Nat) (st : LoopState),
      (runLoop step activity i st msgs).2.1 = false := by
  intro msgs
  induction msgs with
  | nil => intro i st; simp [runLoop]
  | cons m rest ih =>
      intro i st
      simp only [runLoop, hact i, if_pos]
      exact ih (i + 1) (step st m)

theorem phasesOf_append (a b : List Ev) :
    phasesOf (a ++ b) = phasesOf a ++ phasesOf b := by
  simp [phasesOf]

theorem implementStepBlock_phases (st : LoopState) (b : Block) :
    phasesOf (implementStepBlock st b).events = phasesOf st.events := by
  cases b with
  | textBlock s => simp [implementStepBlock, phasesOf_append, phasesOf]
  | toolUseBlock n =>
      by_cases hs : st.hasStartedToolUse <;>
        simp [implementStepBlock, hs, phasesOf_append, phasesOf]
  | otherBlock => rfl

theorem commitStepBlock_phases (st : LoopState) (b : Block) :
    phasesOf (commitStepBlock st b).events = phasesOf st.events := by
  cases b with
  | textBlock s => simp [commitStepBlock, phasesOf_append, phasesOf]
  | toolUseBlock n => simp [commitStepBlock, phasesOf_append, phasesOf]
  | otherBlock => rfl

theorem foldl_phases (stepB : LoopState → Block → LoopState)
    (hB : ∀ st b, phasesOf (stepB st b).events = phasesOf st.events) :
    ∀ (blocks : List Block) (st : LoopState),
      phasesOf ((blocks.foldl stepB st).events) = phasesOf st.events := by
  intro blocks
  induction blocks with
  | nil => intro st; rfl
  | cons b rest ih =>
      intro st
      rw [List.foldl_cons, ih (stepB st b), hB st b]

theorem implementStep_phases (st : LoopState) (m : Msg) :
    phasesOf (implementStep st m).events = phasesOf st.events := by
  cases m with
  | assistant content =>
      exact foldl_phases implementStepBlock implementStepBlock_phases content st
  | other => rfl

theorem commitStep_phases (st : LoopState) (m : Msg) :
    phasesOf (commitStep st m).events = phasesOf st.events := by
  cases m with
  | assistant content =>
      exact foldl_phases commitStepBlock commitStepBlock_phases content st
  | other => rfl

theorem runLoop_phases (step : LoopState → Msg → LoopState)
    (activity : Nat → Bool)
    (hstep : ∀ st m, phasesOf (step st m).events = phasesOf st.events) :
    ∀ (msgs : List Msg) (i : Nat) (st : LoopState),
      phasesOf ((runLoop step activity i st msgs).1.events)
        = phasesOf st.events := by
  intro msgs
  induction msgs with
  | nil => intro i st; rfl
  | cons m rest ih =>
      intro i st
      by_cases ha : activity i
      · simp only [runLoop, ha, if_pos]
        rw [ih (i + 1) (step st m), hstep st m]
      · simp only [Bool.not_eq_true] at ha
        simp [runLoop, ha]

theorem emitGo_spec (e : BusEvent) :
    ∀ subs : List Subscriber,
      emitGo e subs =
        (subs.map (fun s => s.id),
         subs.filterMap
           (fun s => (s.behavior e).map
             (fun err => "Error in event subscriber: " ++ err))) := by
  intro subs
  induction subs with
  | nil => rfl
  | cons s rest ih =>
      cases hb : s.behavior e with
      | none => simp [emitGo, hb, ih, List.filterMap_cons]
      | some err => simp [emitGo, hb, ih, List.filterMap_cons]

theorem isAgentRunning_mapSet (reg : Registry) (k : String)
    (v : RunningAgent) : isAgentRunning (mapSet reg k v) k = true := by
  unfold mapSet isAgentRunning
  by_cases h : reg.any (fun p => p.1 == k)
  · simp only [h, if_pos]
    rw [List.any_eq_true] at h ⊢
    rcases h with ⟨p, hp, hpk⟩
    refine ⟨(k, v), List.mem_map.mpr ⟨p, hp, ?_⟩, by simp⟩
    simp [hpk]
  · simp [h, List.any_append]

theorem statusMessages_ne (fid : String) :
    convertedStatusMessage fid "waiting_approval" "verified"
      ≠ directStatusMessage fid "verified" := by
  intro h
  have hl := congrArg String.length h
  simp only [convertedStatusMessage, directStatusMessage,
    String.length_append] at hl
  have h1 : ("\" (converted from \"" : String).length = 19 := rfl
  have h2 : ("\" because skipTests=true)" : String).length = 25 := rfl
  have h3 : ("\"" : String).length = 1 := rfl
  omega

theorem setStatusCore_skipTests_true (fs : FStore) (fid : String) (f : Obj)
    (hget : storeGet fs fid = some f)
    (hfind : (getAll fs).find?
      (fun o => decide (olookup o "id" = some (JVal.vstr fid))) = some f)
    (hskip : olookup f "skipTests" = some (JVal.vbool true)) :
    setStatusCore fs fid "verified"
      = Except.ok
          (storeWrite fs fid (spread f [("status", JVal.vstr "waiting_approval")]),
           convertedStatusMessage fid "waiting_approval" "verified") := by
  simp [setStatusCore, hfind, hskip, updateFeatureStatusCallback,
    featureUpdate, hget, Except.map]

theorem setStatusCore_skipTests_false (fs : FStore) (fid : String) (f : Obj)
    (hget : storeGet fs fid = some f)
    (hfind : (getAll fs).find?
      (fun o => decide (olookup o "id" = some (JVal.vstr fid))) = some f)
    (hskip : olookup f "skipTests" = some (JVal.vbool false)) :
    setStatusCore fs fid "verified"
      = Except.ok
          (storeWrite fs fid (spread f [("status", JVal.vstr "verified")]),
           directStatusMessage fid "verified") := by
  simp [setStatusCore, hfind, hskip, updateFeatureStatusCallback,
    featureUpdate, hget, Except.map]

theorem storedStatus_after_write (fs : FStore) (fid : String) (f : Obj)
    (v : JVal) (hget : storeGet fs fid = some f) :
    (storeGet (storeWrite fs fid (spread f [("status", v)])) fid).bind
        (fun o => olookup o "status")
      = some v := by
  have hw := storeGet_storeWrite_self fs fid (spread f [("status", v)])
    (by rw [hget]; exact Option.some_ne_none f)
  rw [hw, Option.some_bind]
  rw [olookup_spread_of_isSome f _ _ (by simp [olookup])]
  simp [olookup]

/-- C1: a Status Mutation Gateway call setStatus(f.id, verified) stores
waiting_approval when f.skipTests = true, stores exactly verified when
f.skipTests = false, and the returned confirmation text in the rewritten
case differs from the one in the direct case. -/
theorem setStatus_verified_respects_skipTests
    (fs : FStore) (fid : String) (f : Obj)
    (hget : storeGet fs fid = some f)
    (hfind : (getAll fs).find?
      (fun o => decide (olookup o "id" = some (JVal.vstr fid))) = some f) :
    (olookup f "skipTests" = some (JVal.vbool true) →
       (storeGet (updateFeatureStatusTool fs fid "verified").1 fid).bind
           (fun o => olookup o "status")
         = some (JVal.vstr "waiting_approval") ∧
       (updateFeatureStatusTool fs fid "verified").2
         = convertedStatusMessage fid "waiting_approval" "verified")
    ∧ (olookup f "skipTests" = some (JVal.vbool false) →
       (storeGet (updateFeatureStatusTool fs fid "verified").1 fid).bind
           (fun o => olookup o "status")
         = some (JVal.vstr "verified") ∧
       (updateFeatureStatusTool fs fid "verified").2
         = directStatusMessage fid "verified")
    ∧ convertedStatusMessage fid "waiting_approval" "verified"
        ≠ directStatusMessage fid "verified" := by
  refine ⟨?_, ?_, statusMessages_ne fid⟩
  · intro hskip
    have hcore := setStatusCore_skipTests_true fs fid f hget hfind hskip
    have htool : updateFeatureStatusTool fs fid "verified"
        = (storeWrite fs fid
             (spread f [("status", JVal.vstr "waiting_approval")]),
           convertedStatusMessage fid "waiting_approval" "verified") := by
      rw [updateFeatureStatusTool, hcore]
    rw [htool]
    exact ⟨storedStatus_after_write fs fid f _ hget, rfl⟩
  · intro hskip
    have hcore := setStatusCore_skipTests_false fs fid f hget hfind hskip
    have htool : updateFeatureStatusTool fs fid "verified"
        = (storeWrite fs fid (spread f [("status", JVal.vstr "verified")]),
           directStatusMessage fid "verified") := by
      rw [updateFeatureStatusTool, hcore]
    rw [htool]
    exact ⟨storedStatus_after_write fs fid f _ hget, rfl⟩

/-- Concrete one-feature store with skipTests = true, for witnesses. -/
def sampleFeature : Obj :=
  [("id", JVal.vstr "f1"), ("skipTests", JVal.vbool true),
   ("status", JVal.vstr "in_progress")]

/-- Concrete store holding sampleFeature under its id. -/
def sampleStore : FStore := [("f1", sampleFeature)]

/-- Witness for the setStatus skipTests theorem at a concrete store. -/
theorem setStatus_verified_respects_skipTests_witness :
    (olookup sampleFeature "skipTests" = some (JVal.vbool true) →
       (storeGet (updateFeatureStatusTool sampleStore "f1" "verified").1
           "f1").bind (fun o => olookup o "status")
         = some (JVal.vstr "waiting_approval") ∧
       (updateFeatureStatusTool sampleStore "f1" "verified").2
         = convertedStatusMessage "f1" "waiting_approval" "verified")
    ∧ (olookup sampleFeature "skipTests" = some (JVal.vbool false) →
       (storeGet (updateFeatureStatusTool sampleStore "f1" "verified").1
           "f1").bind (fun o => olookup o "status")
         = some (JVal.vstr "verified") ∧
       (updateFeatureStatusTool sampleStore "f1" "verified").2
         = directStatusMessage "f1" "verified")
    ∧ convertedStatusMessage "f1" "waiting_approval" "verified"
        ≠ directStatusMessage "f1" "verified" :=
  setStatus_verified_respects_skipTests sampleStore "f1" sampleFeature
    (by decide) (by decide)

/-- C5: a setStatus call for a featureId absent from the Feature Store
fails with the NotFound error, the failure text is returned to the
caller, and the store is unchanged. -/
theorem setStatus_notFound_leaves_store (fs : FStore) (fid status : String)
    (hfind : (getAll fs).find?
      (fun o => decide (olookup o "id" = some (JVal.vstr fid))) = none) :
    setStatusCore fs fid status
      = Except.error ("Feature " ++ fid ++ " not found")
    ∧ updateFeatureStatusTool fs fid status
      = (fs, "Failed to update feature status: "
              ++ ("Feature " ++ fid ++ " not found")) := by
  have hcore : setStatusCore fs fid status
      = Except.error ("Feature " ++ fid ++ " not found") := by
    rw [setStatusCore, hfind]
  refine ⟨hcore, ?_⟩
  rw [updateFeatureStatusTool, hcore]

/-- Witness for the NotFound theorem at a concrete store. -/
theorem setStatus_notFound_leaves_store_witness :
    setStatusCore sampleStore "f2" "verified"
      = Except.error ("Feature " ++ "f2" ++ " not found")
    ∧ updateFeatureStatusTool sampleStore "f2" "verified"
      = (sampleStore, "Failed to update feature status: "
              ++ ("Feature " ++ "f2" ++ " not found")) :=
  setStatus_notFound_leaves_store sampleStore "f2" "verified" (by decide)

/-- C9: the Feature Store update operation has merge semantics: the call
succeeds on a stored feature, every field supplied in the updates object
overwrites the stored value, every field not supplied is preserved, and
the merged record is what gets written back under the feature id. -/
theorem featureUpdate_merge_semantics (fs : FStore) (fid : String)
    (updates : Obj) (f : Obj) (hget : storeGet fs fid = some f) :
    featureUpdate fs fid updates
      = Except.ok (storeWrite fs fid (spread f updates), spread f updates)
    ∧ (∀ k, (olookup updates k).isSome →
        olookup (spread f updates) k = olookup updates k)
    ∧ (∀ k, olookup updates k = none →
        olookup (spread f updates) k = olookup f k)
    ∧ storeGet (storeWrite fs fid (spread f updates)) fid
        = some (spread f updates) := by
  refine ⟨?_, ?_, ?_, ?_⟩
  · rw [featureUpdate, hget]
  · intro k hk
    exact olookup_spread_of_isSome f updates k hk
  · intro k hk
    exact olookup_spread_of_none f updates k hk
  · exact storeGet_storeWrite_self fs fid _
      (by rw [hget]; exact Option.some_ne_none f)

/-- Witness for the merge-semantics theorem at a concrete store: the
status field supplied in the update overwrites, the id field not supplied
is preserved. -/
theorem featureUpdate_merge_semantics_witness :
    featureUpdate sampleStore "f1" [("status", JVal.vstr "verified")]
      = Except.ok
          (storeWrite sampleStore "f1"
            (spread sampleFeature [("status", JVal.vstr "verified")]),
           spread sampleFeature [("status", JVal.vstr "verified")])
    ∧ olookup (spread sampleFeature [("status", JVal.vstr "verified")])
        "status"
      = olookup [("status", JVal.vstr "verified")] "status"
    ∧ olookup (spread sampleFeature [("status", JVal.vstr "verified")]) "id"
      = olookup sampleFeature "id" :=
  ⟨(featureUpdate_merge_semantics sampleStore "f1"
      [("status", JVal.vstr "verified")] sampleFeature (by decide)).1,
   (featureUpdate_merge_semantics sampleStore "f1"
      [("status", JVal.vstr "verified")] sampleFeature (by decide)).2.1
     "status" (by decide),
   (featureUpdate_merge_semantics sampleStore "f1"
      [("status", JVal.vstr "verified")] sampleFeature (by decide)).2.2.1
     "id" (by decide)⟩

/-- C10: delete returns true when the feature directory is absent (the
forced recursive removal is a successful no-op and the store is
unchanged), and it returns false exactly when the removal throws. -/
theorem featureDelete_absent_true (fs : FStore) (fid : String)
    (habs : storeGet fs fid = none) :
    featureDelete fs fid false = (fs, true)
    ∧ (featureDelete fs fid true).2 = false
    ∧ (∀ b : Bool, (featureDelete fs fid b).2 = false → b = true) := by
  refine ⟨?_, rfl, ?_⟩
  · rw [featureDelete]
    simp only [Bool.false_eq_true, if_false]
    rw [storeGet_eq_none_filter fs fid habs]
  · intro b hb
    cases b with
    | true => rfl
    | false => rw [featureDelete] at hb; simp at hb

/-- Witness for the delete theorem at a concrete store and an absent id. -/
theorem featureDelete_absent_true_witness :
    featureDelete sampleStore "f2" false = (sampleStore, true)
    ∧ (featureDelete sampleStore "f2" true).2 = false
    ∧ ((featureDelete sampleStore "f2" true).2 = false → true = true) :=
  ⟨(featureDelete_absent_true sampleStore "f2" (by decide)).1,
   (featureDelete_absent_true sampleStore "f2" (by decide)).2.1,
   (featureDelete_absent_true sampleStore "f2" (by decide)).2.2 true⟩

/-- C4: an abort raised by the agent runtime is caught and converted to
the aborted outcome with the handle slots cleared and nothing logged as an
error, while any other runtime error is logged, the handle slots are
cleared, and the error is rethrown to the caller. -/
theorem implementFeature_failure_semantics (store : FStore) (feature : Obj)
    (msgs : List Msg) (activity : Nat → Bool)
    (hact : ∀ i, activity i = true) :
    ((implementFeature store feature msgs
        (StreamTail.raised JsErr.abortErr) activity).result
      = RunResult.ok ⟨false, "Auto mode aborted"⟩
     ∧ (implementFeature store feature msgs
        (StreamTail.raised JsErr.abortErr) activity).handleCleared = true
     ∧ (implementFeature store feature msgs
        (StreamTail.raised JsErr.abortErr) activity).loggedError = none)
    ∧ ∀ s : String,
      (implementFeature store feature msgs
          (StreamTail.raised (JsErr.otherErr s)) activity).result
        = RunResult.thrown (JsErr.otherErr s)
      ∧ (implementFeature store feature msgs
          (StreamTail.raised (JsErr.otherErr s)) activity).handleCleared = true
      ∧ (implementFeature store feature msgs
          (StreamTail.raised (JsErr.otherErr s)) activity).loggedError
        = some (JsErr.otherErr s) := by
  have hnb := runLoop_no_break implementStep activity hact msgs 0 initLoopState
  constructor
  · refine ⟨?_, ?_, ?_⟩ <;> simp [implementFeature, hnb]
  · intro s
    refine ⟨?_, ?_, ?_⟩ <;> simp [implementFeature, hnb]

/-- Witness for the failure-semantics theorem at a concrete run. -/
theorem implementFeature_failure_semantics_witness :
    ((implementFeature sampleStore sampleFeature []
        (StreamTail.raised JsErr.abortErr) (fun _ => true)).result
      = RunResult.ok ⟨false, "Auto mode aborted"⟩
     ∧ (implementFeature sampleStore sampleFeature []
        (StreamTail.raised JsErr.abortErr) (fun _ => true)).handleCleared = true
     ∧ (implementFeature sampleStore sampleFeature []
        (StreamTail.raised JsErr.abortErr) (fun _ => true)).loggedError = none)
    ∧ (implementFeature sampleStore sampleFeature []
          (StreamTail.raised (JsErr.otherErr "boom")) (fun _ => true)).result
        = RunResult.thrown (JsErr.otherErr "boom")
      ∧ (implementFeature sampleStore sampleFeature []
          (StreamTail.raised (JsErr.otherErr "boom")) (fun _ => true)).handleCleared
        = true
      ∧ (implementFeature sampleStore sampleFeature []
          (StreamTail.raised (JsErr.otherErr "boom")) (fun _ => true)).loggedError
        = some (JsErr.otherErr "boom") :=
  ⟨(implementFeature_failure_semantics sampleStore sampleFeature []
      (fun _ => true) (fun _ => rfl)).1,
   (implementFeature_failure_semantics sampleStore sampleFeature []
      (fun _ => true) (fun _ => rfl)).2 "boom"⟩

/-- C6: a commitOnly run whose stream completes without error returns
passes unconditionally true with no verification read (the outcome does
not depend on any Feature Store state), the allow-list is exactly Bash
plus the status gateway tool with no code-editing tools, and the turn
budget is bounded at 10. -/
theorem commitOnly_spec (feature : Obj) (msgs : List Msg)
    (activity : Nat → Bool) :
    (∃ m, (commitChangesOnly feature msgs StreamTail.done activity).result
        = RunResult.ok ⟨true, m⟩)
    ∧ commitOnlyOptions.allowedTools
        = ["Bash", "mcp__automaker-tools__UpdateFeatureStatus"]
    ∧ "Edit" ∉ commitOnlyOptions.allowedTools
    ∧ "Write" ∉ commitOnlyOptions.allowedTools
    ∧ commitOnlyOptions.maxTurns = 10 := by
  refine ⟨?_, rfl, by decide, by decide, rfl⟩
  cases hbroke : (runLoop commitStep activity 0 initLoopState msgs).2.1 with
  | false =>
      exact ⟨substring500 ((runLoop commitStep activity 0 initLoopState msgs).1.responseText),
        by simp [commitChangesOnly, hbroke]⟩
  | true =>
      exact ⟨substring500 ((runLoop commitStep activity 0 initLoopState msgs).1.responseText),
        by simp [commitChangesOnly, hbroke]⟩

/-- C8: one emit invokes every subscriber in registration order even when
some subscribers throw, logs each thrown error, and leaves the subscriber
set untouched. -/
theorem emitBus_isolates_subscribers (subs : List Subscriber) (e : BusEvent) :
    emitBus subs e
      = (subs,
         subs.map (fun s => s.id),
         subs.filterMap (fun s => (s.behavior e).map
           (fun err => "Error in event subscriber: " ++ err))) := by
  unfold emitBus
  rw [emitGo_spec]

/-- C3: from a state where the feature is not running, the first run
request is accepted and registers the feature; while it stays registered a
second run request for the same featureId fails fast with busy and leaves
the registry unchanged (it is never queued). -/
theorem tryRegister_exclusive (reg : Registry) (fid p1 p2 : String)
    (a1 a2 : Bool) (hfree : isAgentRunning reg fid = false) :
    (tryRegister reg fid p1 a1).2 = RunAccept.accepted
    ∧ isAgentRunning (tryRegister reg fid p1 a1).1 fid = true
    ∧ tryRegister (tryRegister reg fid p1 a1).1 fid p2 a2
        = ((tryRegister reg fid p1 a1).1, RunAccept.busy) := by
  have h1 : tryRegister reg fid p1 a1
      = (registerRunningAgent reg fid p1 a1, RunAccept.accepted) := by
    simp [tryRegister, hfree]
  have hrun : isAgentRunning (registerRunningAgent reg fid p1 a1) fid
      = true := isAgentRunning_mapSet reg fid _
  refine ⟨by rw [h1], by rw [h1]; exact hrun, ?_⟩
  rw [h1]
  simp [tryRegister, hrun]

/-- Witness for the registry-exclusivity theorem from the empty registry. -/
theorem tryRegister_exclusive_witness :
    (tryRegister [] "f1" "/a" false).2 = RunAccept.accepted
    ∧ isAgentRunning (tryRegister [] "f1" "/a" false).1 "f1" = true
    ∧ tryRegister (tryRegister [] "f1" "/a" false).1 "f1" "/b" true
        = ((tryRegister [] "f1" "/a" false).1, RunAccept.busy) :=
  tryRegister_exclusive [] "f1" "/a" "/b" false true (by decide)

/-- Concrete feature already stored as verified, for counterexamples. -/
def verifiedFeature : Obj :=
  [("id", JVal.vstr "f1"), ("status", JVal.vstr "verified")]

/-- Concrete store holding verifiedFeature under its id. -/
def verifiedStore : FStore := [("f1", verifiedFeature)]

set_option maxRecDepth 2000 in
/-- C2 counterexample: on a run whose Execution Handle becomes inactive
after the first streamed unit, the consuming loop does break, but the run
then executes the verification step and returns the store-derived passing
outcome, not the aborted outcome claimed. -/
theorem inactive_handle_outcome_counterexample :
    (implementFeature verifiedStore verifiedFeature
        [Msg.assistant [Block.textBlock "x"], Msg.assistant [Block.textBlock "y"]]
        StreamTail.done (fun n => decide (n = 0))).result
      = RunResult.ok ⟨true, "x"⟩
    ∧ (implementFeature verifiedStore verifiedFeature
        [Msg.assistant [Block.textBlock "x"], Msg.assistant [Block.textBlock "y"]]
        StreamTail.done (fun n => decide (n = 0))).result
      ≠ RunResult.ok ⟨false, "Auto mode aborted"⟩ := by
  constructor
  · rfl
  · decide

/-- C2 amended: the consuming loop stops within one streamed unit of the
handle being observed inactive (it processes no message at or beyond an
inactive poll index); every run whose loop broke on the liveness flag, at
whatever point in the stream and whatever the pending stream tail,
proceeds to the verification step and returns the outcome derived from
the re-read store status with the accumulated transcript prefix; and on
an unbroken loop the ending determines the result completely, so the
aborted outcome arises exactly from an abort error raised by the runtime,
never from the liveness-flag break. -/
theorem inactive_handle_stops_consuming (store : FStore) (feature : Obj)
    (msgs : List Msg) (tail : StreamTail) (activity : Nat → Bool) :
    (∀ j, activity j = false →
        (runLoop implementStep activity 0 initLoopState msgs).2.2 ≤ j)
    ∧ ((runLoop implementStep activity 0 initLoopState msgs).2.1 = true →
        (implementFeature store feature msgs tail activity).result
          = RunResult.ok ⟨computePasses store feature,
              substring500
                (runLoop implementStep activity 0 initLoopState
                  msgs).1.responseText⟩)
    ∧ ((runLoop implementStep activity 0 initLoopState msgs).2.1 = false →
        (implementFeature store feature msgs StreamTail.done activity).result
          = RunResult.ok ⟨computePasses store feature,
              substring500
                (runLoop implementStep activity 0 initLoopState
                  msgs).1.responseText⟩
        ∧ (implementFeature store feature msgs
            (StreamTail.raised JsErr.abortErr) activity).result
          = RunResult.ok ⟨false, "Auto mode aborted"⟩
        ∧ ∀ s, (implementFeature store feature msgs
            (StreamTail.raised (JsErr.otherErr s)) activity).result
          = RunResult.thrown (JsErr.otherErr s)) := by
  refine ⟨?_, ?_, ?_⟩
  · intro j hj
    exact runLoop_count_le implementStep activity msgs 0 j initLoopState
      (by rw [Nat.zero_add]; exact hj)
  · intro hbroke
    simp [implementFeature, hbroke]
  · intro hbroke
    refine ⟨?_, ?_, ?_⟩ <;> simp [implementFeature, hbroke]

/-- Two-message stream for the cancellation witness. -/
def twoMsgs : List Msg :=
  [Msg.assistant [Block.textBlock "x"], Msg.assistant [Block.textBlock "y"]]

/-- Handle liveness that is live for the first poll only, a mid-stream
cancellation. -/
def activeFirstOnly : Nat → Bool := fun n => decide (n = 0)

/-- Witness for the amended cancellation theorem: a mid-stream
cancellation after the first unit bounds the consumed count, yields the
verification-derived outcome with the accumulated text even over a
pending error tail, and an unbroken run ends per its stream tail. -/
theorem inactive_handle_stops_consuming_witness :
    (runLoop implementStep activeFirstOnly 0 initLoopState twoMsgs).2.2 ≤ 1
    ∧ (implementFeature verifiedStore verifiedFeature twoMsgs
        (StreamTail.raised (JsErr.otherErr "boom")) activeFirstOnly).result
      = RunResult.ok ⟨computePasses verifiedStore verifiedFeature,
          substring500
            (runLoop implementStep activeFirstOnly 0 initLoopState
              twoMsgs).1.responseText⟩
    ∧ ((implementFeature verifiedStore verifiedFeature twoMsgs
          StreamTail.done (fun _ => true)).result
        = RunResult.ok ⟨computePasses verifiedStore verifiedFeature,
            substring500
              (runLoop implementStep (fun _ => true) 0 initLoopState
                twoMsgs).1.responseText⟩
       ∧ (implementFeature verifiedStore verifiedFeature twoMsgs
            (StreamTail.raised JsErr.abortErr) (fun _ => true)).result
        = RunResult.ok ⟨false, "Auto mode aborted"⟩
       ∧ (implementFeature verifiedStore verifiedFeature twoMsgs
            (StreamTail.raised (JsErr.otherErr "boom")) (fun _ => true)).result
        = RunResult.thrown (JsErr.otherErr "boom")) :=
  ⟨(inactive_handle_stops_consuming verifiedStore verifiedFeature twoMsgs
      (StreamTail.raised (JsErr.otherErr "boom")) activeFirstOnly).1 1
      (by decide),
   (inactive_handle_stops_consuming verifiedStore verifiedFeature twoMsgs
      (StreamTail.raised (JsErr.otherErr "boom")) activeFirstOnly).2.1
      (by decide),
   let h := (inactive_handle_stops_consuming verifiedStore verifiedFeature
      twoMsgs StreamTail.done (fun _ => true)).2.2 (by decide)
   ⟨h.1, h.2.1, h.2.2 "boom"⟩⟩

/-- C7 counterexample: a commit-only run emits no phase events at all, so
it does not emit planning and action (omitting only verification) as the
claim states. -/
theorem commitOnly_phases_counterexample :
    phasesOf (commitChangesOnly sampleFeature
        [Msg.assistant [Block.textBlock "done"]] StreamTail.done
        (fun _ => true)).trace = []
    ∧ phasesOf (commitChangesOnly sampleFeature
        [Msg.assistant [Block.textBlock "done"]] StreamTail.done
        (fun _ => true)).trace ≠ ["planning", "action"] := by
  constructor
  · rfl
  · decide

/-- C7 amended: a full run whose stream is consumed to normal completion
emits the phase events planning, action, verification in that order
exactly once each; a commit-only run emits no phase events at all; within
one publish the subscribers are invoked in registration order. -/
theorem phase_events_in_order (store : FStore) (feature : Obj)
    (msgs : List Msg) (activity : Nat → Bool) (subs : List Subscriber)
    (e : BusEvent) :
    phasesOf (implementFeature store feature msgs StreamTail.done
        activity).trace
      = ["planning", "action", "verification"]
    ∧ (∀ tail, phasesOf (commitChangesOnly feature msgs tail activity).trace
        = [])
    ∧ (emitBus subs e).2.1 = subs.map (fun s => s.id) := by
  refine ⟨?_, ?_, ?_⟩
  · have hst0 : phasesOf (runLoop implementStep activity 0 initLoopState
        msgs).1.events = [] := by
      rw [runLoop_phases implementStep activity implementStep_phases
        msgs 0 initLoopState]
      rfl
    simp only [phasesOf] at hst0
    cases hbroke : (runLoop implementStep activity 0 initLoopState msgs).2.1 with
    | false =>
        simp [implementFeature, hbroke, phasesOf, List.filterMap_append, hst0]
    | true =>
        simp [implementFeature, hbroke, phasesOf, List.filterMap_append, hst0]
  · intro tail
    have hst0 : phasesOf (runLoop commitStep activity 0 initLoopState
        msgs).1.events = [] := by
      rw [runLoop_phases commitStep activity commitStep_phases
        msgs 0 initLoopState]
      rfl
    simp only [phasesOf] at hst0
    cases hbroke : (runLoop commitStep activity 0 initLoopState msgs).2.1 with
    | false =>
        cases tail with
        | done =>
            simp [commitChangesOnly, hbroke, phasesOf, List.filterMap_append,
              hst0]
        | raised err =>
            cases err with
            | abortErr =>
                simp [commitChangesOnly, hbroke, phasesOf,
                  List.filterMap_append, hst0]
            | otherErr s =>
                simp [commitChangesOnly, hbroke, phasesOf,
                  List.filterMap_append, hst0]
    | true =>
        simp [commitChangesOnly, hbroke, phasesOf, List.filterMap_append, hst0]
  · simp [emitBus, emitGo_spec]
